import Mathlib

/-!
Verification of the geometric clipmap terrain subsystem of the
wgpu-renderer repository.

The embedding below follows the Rust sources:
  crates/wre-terrain/src/consts.rs      (stamp mesh generation, constants)
  crates/wre-terrain/src/component.rs   (TerrainComponent, draw_terrain)
  crates/wre-terrain/src/system.rs      (TerrainSystem::update)
  crates/wre_terrain/src/lib.rs         (Terrain::update, instance lists)

Modelling conventions:
  - f32 camera coordinates and vertex coordinates are modelled as exact
    rationals.  Every number the generators produce is a small integer or
    half-integer, hence exactly representable in f32, and the placement
    algorithm of Terrain::update is specified by the repository for
    real-valued camera positions.
  - u32 mesh indices are modelled as naturals; all generated index values
    are below 2^32 by the bound theorems proved here, so wrap-around
    cannot occur in the source.
  - The mesh generators in consts.rs write into fixed arrays of size
    V_MAX and I_MAX that start zero-initialised; this is modelled by
    padding the generated prefix with zeros (padVerts / padIdx).
  - The Rust constants TILE_RES, PATCH_RES, CLIP_RES, CLIP_VERT_RES are
    fixed at 64 / 65 / 257 / 258; the generators are additionally stated
    parametrically in an arbitrary tile resolution n, with patchRes n and
    clipVertRes n the derived resolutions, so that the closed-form size
    claims can be proved for any TILE_RES.
-/

namespace WgpuTerrain

/-! ## Constants, from crates/wre-terrain/src/consts.rs -/

def SCALE_OFFSET : ℕ := 5
def N_LEVELS : ℕ := 10
def N_TILES : ℕ := N_LEVELS * 16
def N_FILLERS : ℕ := N_LEVELS
def N_TRIMS : ℕ := N_LEVELS - 1
def N_SEAMS : ℕ := N_LEVELS - 1
def N_CROSS : ℕ := 1

def TILE_RES : ℕ := 64
def PATCH_RES : ℕ := TILE_RES + 1
def CLIP_RES : ℕ := TILE_RES * 4 + 1
def CLIP_VERT_RES : ℕ := CLIP_RES + 1

def V_TILE : ℕ := PATCH_RES * PATCH_RES
def I_TILE : ℕ := 6 * (TILE_RES * TILE_RES)

def V_FILL : ℕ := 8 * PATCH_RES
def I_FILL : ℕ := 24 * TILE_RES

def V_TRIM : ℕ := (CLIP_VERT_RES * 2 + 1) * 2
def I_TRIM : ℕ := (CLIP_VERT_RES * 2 - 1) * 6

def V_CROSS : ℕ := 8 * PATCH_RES
def I_CROSS : ℕ := 24 * TILE_RES + 6

def V_SEAM : ℕ := 4 * CLIP_VERT_RES
def I_SEAM : ℕ := 6 * CLIP_VERT_RES

def V_MAX : ℕ := V_TILE
def I_MAX : ℕ := I_TILE

/-- Derived resolution PATCH_RES = TILE_RES + 1, for an arbitrary tile
resolution n. -/
def patchRes (n : ℕ) : ℕ := n + 1

/-- Derived resolution CLIP_VERT_RES = (TILE_RES * 4 + 1) + 1, for an
arbitrary tile resolution n. -/
def clipVertRes (n : ℕ) : ℕ := 4 * n + 2

/-! ## Stamp generators, from crates/wre-terrain/src/consts.rs,
parametric in the tile resolution n.  Vertices are 2D points; indices
are positions into the vertex list. -/

/-- Vertices of generate_tile_mesh: a PATCH_RES x PATCH_RES grid,
vertex v at (v % PATCH_RES, v / PATCH_RES). -/
def tileVerts (n : ℕ) : List (ℚ × ℚ) :=
  (List.range (patchRes n * patchRes n)).map
    (fun v => (((v % patchRes n : ℕ) : ℚ), ((v / patchRes n : ℕ) : ℚ)))

/-- Indices of generate_tile_mesh: per grid cell (x, y) the two
triangles [base, up_right, up] and [base, right, up_right], with
right = base + 1 and up = base + PATCH_RES. -/
def tileIndices (n : ℕ) : List ℕ :=
  (List.range n).flatMap (fun y =>
    (List.range n).flatMap (fun x =>
      [y * patchRes n + x, y * patchRes n + x + patchRes n + 1,
       y * patchRes n + x + patchRes n,
       y * patchRes n + x, y * patchRes n + x + 1,
       y * patchRes n + x + patchRes n + 1]))

/-- Vertices of generate_filler_mesh: four arms of PATCH_RES vertex
pairs each; arm 0 is +X, arm 1 is +Y, arm 2 is -X, arm 3 is -Y, with
offset = TILE_RES. -/
def fillerVerts (n : ℕ) : List (ℚ × ℚ) :=
  (List.range 4).flatMap (fun arm =>
    (List.range (patchRes n)).flatMap (fun i =>
      match arm with
      | 0 => [(((n + i + 1 : ℕ) : ℚ), 0), (((n + i + 1 : ℕ) : ℚ), 1)]
      | 1 => [(1, ((n + i + 1 : ℕ) : ℚ)), (0, ((n + i + 1 : ℕ) : ℚ))]
      | 2 => [(-((n + i : ℕ) : ℚ), 1), (-((n + i : ℕ) : ℚ), 0)]
      | _ => [(0, -((n + i : ℕ) : ℚ)), (1, -((n + i : ℕ) : ℚ))]))

/-- Indices of generate_filler_mesh: for a in 0..4*TILE_RES, with
arm = a / TILE_RES, local = a % TILE_RES,
arm_start = arm * PATCH_RES * 2, bl = arm_start + local * 2,
horizontal arms use [br, bl, tr, bl, tl, tr] and vertical arms use
[br, bl, tl, br, tl, tr]. -/
def fillerIndices (n : ℕ) : List ℕ :=
  (List.range (n * 4)).flatMap (fun a =>
    if (a / n) % 2 = 0 then
      [(a / n) * patchRes n * 2 + (a % n) * 2 + 1,
       (a / n) * patchRes n * 2 + (a % n) * 2,
       (a / n) * patchRes n * 2 + (a % n) * 2 + 3,
       (a / n) * patchRes n * 2 + (a % n) * 2,
       (a / n) * patchRes n * 2 + (a % n) * 2 + 2,
       (a / n) * patchRes n * 2 + (a % n) * 2 + 3]
    else
      [(a / n) * patchRes n * 2 + (a % n) * 2 + 1,
       (a / n) * patchRes n * 2 + (a % n) * 2,
       (a / n) * patchRes n * 2 + (a % n) * 2 + 2,
       (a / n) * patchRes n * 2 + (a % n) * 2 + 1,
       (a / n) * patchRes n * 2 + (a % n) * 2 + 2,
       (a / n) * patchRes n * 2 + (a % n) * 2 + 3])

/-- Vertices of generate_trim_mesh: an L shape, vertical bar of
CLIP_VERT_RES + 1 vertex rows then horizontal bar of CLIP_VERT_RES
vertex columns, all offset by half = (CLIP_VERT_RES + 1) / 2. -/
def trimVerts (n : ℕ) : List (ℚ × ℚ) :=
  (List.range (clipVertRes n + 1)).flatMap (fun (i : ℕ) =>
    [(0 - ((clipVertRes n : ℚ) + 1) / 2,
      (clipVertRes n : ℚ) - (i : ℚ) - ((clipVertRes n : ℚ) + 1) / 2),
     (1 - ((clipVertRes n : ℚ) + 1) / 2,
      (clipVertRes n : ℚ) - (i : ℚ) - ((clipVertRes n : ℚ) + 1) / 2)])
  ++ (List.range (clipVertRes n)).flatMap (fun (i : ℕ) =>
    [(((i : ℚ) + 1) - ((clipVertRes n : ℚ) + 1) / 2,
      0 - ((clipVertRes n : ℚ) + 1) / 2),
     (((i : ℚ) + 1) - ((clipVertRes n : ℚ) + 1) / 2,
      1 - ((clipVertRes n : ℚ) + 1) / 2)])

/-- Indices of generate_trim_mesh: CLIP_VERT_RES quads for the vertical
strip, then CLIP_VERT_RES - 1 quads for the horizontal strip starting
at vertex start_h = (CLIP_VERT_RES + 1) * 2. -/
def trimIndices (n : ℕ) : List ℕ :=
  (List.range (clipVertRes n)).flatMap (fun i =>
    [2 * i + 1, 2 * i, 2 * i + 2, 2 * i + 3, 2 * i + 1, 2 * i + 2])
  ++ (List.range (clipVertRes n - 1)).flatMap (fun i =>
    [(clipVertRes n + 1) * 2 + 2 * i + 1, (clipVertRes n + 1) * 2 + 2 * i,
     (clipVertRes n + 1) * 2 + 2 * i + 2, (clipVertRes n + 1) * 2 + 2 * i + 3,
     (clipVertRes n + 1) * 2 + 2 * i + 1, (clipVertRes n + 1) * 2 + 2 * i + 2])

/-- Vertices of generate_cross_mesh: a horizontal bar of PATCH_RES * 2
vertex pairs at x = i - TILE_RES, then a vertical bar of the same shape
along y. -/
def crossVerts (n : ℕ) : List (ℚ × ℚ) :=
  (List.range (patchRes n * 2)).flatMap (fun (i : ℕ) =>
    [((i : ℚ) - (n : ℚ), 0), ((i : ℚ) - (n : ℚ), 1)])
  ++ (List.range (patchRes n * 2)).flatMap (fun (i : ℕ) =>
    [(0, (i : ℚ) - (n : ℚ)), (1, (i : ℚ) - (n : ℚ))])

/-- One quad of the horizontal strip of generate_cross_mesh, for strip
position i: [br, bl, tr, bl, tl, tr] with bl = i * 2. -/
def crossQuadH (i : ℕ) : List ℕ :=
  [2 * i + 1, 2 * i, 2 * i + 3, 2 * i, 2 * i + 2, 2 * i + 3]

/-- One quad of the vertical strip of generate_cross_mesh, for strip
position i, offset by vert_base = PATCH_RES * 2 * 2:
[br, tr, bl, bl, tr, tl]. -/
def crossQuadV (n i : ℕ) : List ℕ :=
  [patchRes n * 4 + 2 * i + 1, patchRes n * 4 + 2 * i + 3,
   patchRes n * 4 + 2 * i, patchRes n * 4 + 2 * i,
   patchRes n * 4 + 2 * i + 3, patchRes n * 4 + 2 * i + 2]

/-- Indices of generate_cross_mesh: TILE_RES * 2 + 1 quads for the
horizontal strip, and the same range for the vertical strip except that
position i = TILE_RES is skipped. -/
def crossIndices (n : ℕ) : List ℕ :=
  (List.range (n * 2 + 1)).flatMap crossQuadH
  ++ ((List.range (n * 2 + 1)).filter (fun i => i ≠ n)).flatMap (crossQuadV n)

/-- Vertices of generate_seam_mesh: CLIP_VERT_RES vertices per edge of a
square of side CLIP_VERT_RES, read bottom, right, top, left. -/
def seamVerts (n : ℕ) : List (ℚ × ℚ) :=
  (List.range (clipVertRes n)).map (fun (i : ℕ) => ((i : ℚ), 0))
  ++ (List.range (clipVertRes n)).map
      (fun (i : ℕ) => ((clipVertRes n : ℚ), (i : ℚ)))
  ++ (List.range (clipVertRes n)).map
      (fun (i : ℕ) => ((clipVertRes n : ℚ) - (i : ℚ), (clipVertRes n : ℚ)))
  ++ (List.range (clipVertRes n)).map
      (fun (i : ℕ) => (0, (clipVertRes n : ℚ) - (i : ℚ)))

/-- Indices of generate_seam_mesh: for each pair in 0 .. V_SEAM / 2 with
j = pair * 2, the triangle [j + 1, j, (j + 2) % V_SEAM]. -/
def seamIndices (n : ℕ) : List ℕ :=
  (List.range (4 * clipVertRes n / 2)).flatMap (fun p =>
    [2 * p + 1, 2 * p, (2 * p + 2) % (4 * clipVertRes n)])

/-! ## Mesh2d, from crates/wre-terrain/src/consts.rs -/

/-- Mesh2d: fixed-capacity vertex and index storage (arrays of size
V_MAX and I_MAX in the source, zero-initialised) plus the live counts
and the per-frame maximum instance count. -/
structure Mesh2d where
  label : String
  vertices : List (ℚ × ℚ)
  indices : List ℕ
  vertex_count : ℕ
  index_count : ℕ
  instance_count : ℕ
deriving Repr

/-- Pads a generated vertex list with Vec2::ZERO entries to the uniform
storage size V_MAX, like the zero-initialised [Vec2; V_MAX] arrays in
the source. -/
def padVerts (l : List (ℚ × ℚ)) : List (ℚ × ℚ) :=
  l ++ List.replicate (V_MAX - l.length) (0, 0)

/-- Pads a generated index list with 0u32 entries to the uniform storage
size I_MAX. -/
def padIdx (l : List ℕ) : List ℕ :=
  l ++ List.replicate (I_MAX - l.length) 0

def TILE_MESH : Mesh2d :=
  { label := "Tile"
    vertices := padVerts (tileVerts TILE_RES)
    indices := padIdx (tileIndices TILE_RES)
    vertex_count := V_TILE
    index_count := I_TILE
    instance_count := N_TILES }

def FILLER_MESH : Mesh2d :=
  { label := "Filler"
    vertices := padVerts (fillerVerts TILE_RES)
    indices := padIdx (fillerIndices TILE_RES)
    vertex_count := V_FILL
    index_count := I_FILL
    instance_count := N_FILLERS }

def TRIM_MESH : Mesh2d :=
  { label := "Trim"
    vertices := padVerts (trimVerts TILE_RES)
    indices := padIdx (trimIndices TILE_RES)
    vertex_count := V_TRIM
    index_count := I_TRIM
    instance_count := N_TRIMS }

def CROSS_MESH : Mesh2d :=
  { label := "Cross"
    vertices := padVerts (crossVerts TILE_RES)
    indices := padIdx (crossIndices TILE_RES)
    vertex_count := V_CROSS
    index_count := I_CROSS
    instance_count := N_CROSS }

def SEAM_MESH : Mesh2d :=
  { label := "Seam"
    vertices := padVerts (seamVerts TILE_RES)
    indices := padIdx (seamIndices TILE_RES)
    vertex_count := V_SEAM
    index_count := I_SEAM
    instance_count := N_SEAMS }

/-- Mesh2d::vertex_buffer uploads bytemuck::cast_slice of the slice
vertices[0 .. vertex_count].  The slice panics (none) when the count
exceeds the storage length; otherwise the uploaded contents are exactly
the first vertex_count stored vertices. -/
def Mesh2d.vertex_buffer (m : Mesh2d) : Option (List (ℚ × ℚ)) :=
  if m.vertex_count ≤ m.vertices.length then
    some (m.vertices.take m.vertex_count)
  else none

/-- Mesh2d::index_buffer uploads the slice indices[0 .. index_count],
analogously to Mesh2d.vertex_buffer. -/
def Mesh2d.index_buffer (m : Mesh2d) : Option (List ℕ) :=
  if m.index_count ≤ m.indices.length then
    some (m.indices.take m.index_count)
  else none

/-! ## Instance placement, from crates/wre_terrain/src/lib.rs
(Terrain::update) and crates/wre-terrain/src/system.rs
(TerrainSystem::update); the two bodies build identical instance
lists. -/

/-- One InstanceData record.  The source stores the composed 4x4 matrix
Mat4::from_scale_rotation_translation(vec3(s, s, 1), rot, vec3(t, 0));
composition in that fixed order is injective on the values occurring
here (positive scale, right-angle rotations), so the record of the
three components is an equivalent representation.  rot counts
quarter-turns counterclockwise about z, 0 = Quat::IDENTITY. -/
structure InstanceData where
  scale : ℚ
  rot : ℕ
  translation : ℚ × ℚ
deriving Repr, DecidableEq

/-- Modelled from the spec: the constant ROTATIONS table of
crates/wre_terrain/src/consts.rs is not part of the source tree (the
file is absent); per the spec the rotations at indices 0..3 are
0, 270, 90 and 180 degrees, encoded as quarter-turn counts.  The
argument range beyond 3 is never used (the quadrant index is proved to
lie in {0,1,2,3}). -/
def ROTATIONS (r : ℕ) : ℕ :=
  match r with
  | 0 => 0
  | 1 => 3
  | 2 => 1
  | 3 => 2
  | _ => 0

/-- scale = (1u32 << (level + SCALE_OFFSET)) as f32. -/
def scaleAt (level : ℕ) : ℚ := ((2 ^ (level + SCALE_OFFSET) : ℕ) : ℚ)

/-- tile_size = (TILE_RES << (level + SCALE_OFFSET)) as f32 (one
component of the splatted Vec2). -/
def tileSizeAt (level : ℕ) : ℚ := ((TILE_RES * 2 ^ (level + SCALE_OFFSET) : ℕ) : ℚ)

/-- One component of (camera_position / scale).floor() * scale. -/
def snap (c s : ℚ) : ℚ := ((⌊c / s⌋ : ℤ) : ℚ) * s

/-- snapped_pos = (camera_position / scale).floor() * scale. -/
def snappedPos (cam : ℚ × ℚ) (s : ℚ) : ℚ × ℚ := (snap cam.1 s, snap cam.2 s)

/-- The Cross instance pushed at level 0: scale for the level, identity
rotation, translated to the snapped camera position. -/
def crossAt (cam : ℚ × ℚ) (level : ℕ) : InstanceData :=
  { scale := scaleAt level
    rot := 0
    translation := snappedPos cam (scaleAt level) }

/-- The grid coordinates iterated for the 4x4 tile block of one level:
x and y in 0..4, skipping the middle 2x2 when the level is not the
finest. -/
def tileCoords (level : ℕ) : List (ℕ × ℕ) :=
  (List.range 4).flatMap (fun x =>
    (List.range 4).flatMap (fun y =>
      if level ≠ 0 ∧ (x = 1 ∨ x = 2) ∧ (y = 1 ∨ y = 2) then []
      else [(x, y)]))

/-- One Tile instance: fill = (x >= 2 ? scale : 0, y >= 2 ? scale : 0),
bl = base + pos * tile_size + fill with base = snapped_pos
 - 2 * tile_size. -/
def tileAt (cam : ℚ × ℚ) (level : ℕ) (xy : ℕ × ℕ) : InstanceData :=
  { scale := scaleAt level
    rot := 0
    translation :=
      (snap cam.1 (scaleAt level) - 2 * tileSizeAt level
         + (xy.1 : ℚ) * tileSizeAt level
         + (if xy.1 ≥ 2 then scaleAt level else 0),
       snap cam.2 (scaleAt level) - 2 * tileSizeAt level
         + (xy.2 : ℚ) * tileSizeAt level
         + (if xy.2 ≥ 2 then scaleAt level else 0)) }

/-- The Tile instances one level contributes, in iteration order. -/
def tilesAt (cam : ℚ × ℚ) (level : ℕ) : List InstanceData :=
  (tileCoords level).map (tileAt cam level)

/-- The Filler (ring) instance of one level, at the snapped position. -/
def fillerAt (cam : ℚ × ℚ) (level : ℕ) : InstanceData :=
  { scale := scaleAt level
    rot := 0
    translation := snappedPos cam (scaleAt level) }

/-- next_snap = (camera_position / next_scale).floor() * next_scale with
next_scale = scale * 2. -/
def nextSnap (cam : ℚ × ℚ) (level : ℕ) : ℚ × ℚ :=
  snappedPos cam (scaleAt level * 2)

/-- The Seam instance of one non-outermost level, at next_snap minus the
splatted TILE_RES << (level + SCALE_OFFSET + 1). -/
def seamAt (cam : ℚ × ℚ) (level : ℕ) : InstanceData :=
  { scale := scaleAt level
    rot := 0
    translation :=
      ((nextSnap cam level).1 - tileSizeAt (level + 1),
       (nextSnap cam level).2 - tileSizeAt (level + 1)) }

/-- The trim quadrant index
r = (d.x < scale ? 2 : 0) | (d.y < scale ? 1 : 0) for
d = camera_position - next_snap. -/
def rIdx (cam : ℚ × ℚ) (level : ℕ) : ℕ :=
  (if cam.1 - (nextSnap cam level).1 < scaleAt level then 2 else 0)
    ||| (if cam.2 - (nextSnap cam level).2 < scaleAt level then 1 else 0)

/-- The Trim instance of one non-outermost level, at
center = snapped_pos + 0.5 * scale with rotation ROTATIONS[r]. -/
def trimAt (cam : ℚ × ℚ) (level : ℕ) : InstanceData :=
  { scale := scaleAt level
    rot := ROTATIONS (rIdx cam level)
    translation :=
      (snap cam.1 (scaleAt level) + scaleAt level / 2,
       snap cam.2 (scaleAt level) + scaleAt level / 2) }

/-- The five per-frame instance lists (the instances fields of the five
TerrainComponents of Terrain, rebuilt by every update call). -/
structure TerrainInstances where
  tiles : List InstanceData
  crosses : List InstanceData
  fillers : List InstanceData
  trims : List InstanceData
  seams : List InstanceData
deriving Repr, DecidableEq

/-- Terrain::update: one pass over the levels 0 .. N_LEVELS pushing
Cross (level 0 only), the 4x4 Tile block, the Filler ring, and for the
non-outermost levels the Seam and Trim instances. -/
def Terrain.update (cam : ℚ × ℚ) : TerrainInstances :=
  { tiles := (List.range N_LEVELS).flatMap (tilesAt cam)
    crosses := (List.range N_LEVELS).flatMap (fun level =>
      if level = 0 then [crossAt cam level] else [])
    fillers := (List.range N_LEVELS).map (fillerAt cam)
    trims := (List.range N_LEVELS).flatMap (fun level =>
      if level < N_LEVELS - 1 then [trimAt cam level] else [])
    seams := (List.range N_LEVELS).flatMap (fun level =>
      if level < N_LEVELS - 1 then [seamAt cam level] else []) }

/-! ## Draw side, from crates/wre-terrain/src/component.rs -/

/-- The fields of TerrainComponent relevant to the draw call; the GPU
buffer handles carry no further data. -/
structure TerrainComponent where
  instance_count : ℕ
  index_count : ℕ
deriving Repr, DecidableEq

/-- TerrainComponent::new copies the index and instance counts from the
mesh; the instance buffer is allocated with capacity
mesh.instance_count. -/
def TerrainComponent.new (mesh : Mesh2d) : TerrainComponent :=
  { instance_count := mesh.instance_count
    index_count := mesh.index_count }

/-- draw_terrain issues draw_indexed(0..index_count, 0,
0..instance_count): the (index range length, instance range length)
pair of the draw call. -/
def draw_terrain (c : TerrainComponent) : ℕ × ℕ :=
  (c.index_count, c.instance_count)

/-! ## Helper lemmas: generated sizes -/

lemma tileVerts_length (n : ℕ) :
    (tileVerts n).length = patchRes n * patchRes n := by
  simp [tileVerts]

lemma tileIndices_length (n : ℕ) : (tileIndices n).length = 6 * (n * n) := by
  simp [tileIndices, List.length_flatMap, Function.comp_def, List.map_const',
    List.sum_replicate, smul_eq_mul]
  ring

lemma fillerVerts_length (n : ℕ) : (fillerVerts n).length = 8 * patchRes n := by
  simp [fillerVerts, List.length_flatMap, Function.comp_def, List.range_succ,
    List.map_const', List.sum_replicate, smul_eq_mul]
  ring

lemma fillerIndices_length (n : ℕ) : (fillerIndices n).length = 24 * n := by
  simp [fillerIndices, List.length_flatMap, Function.comp_def,
    apply_ite List.length, List.map_const', List.sum_replicate, smul_eq_mul]
  ring

lemma trimVerts_length (n : ℕ) :
    (trimVerts n).length = (clipVertRes n * 2 + 1) * 2 := by
  simp [trimVerts, List.length_flatMap, Function.comp_def, List.map_const',
    List.sum_replicate, smul_eq_mul]
  ring

lemma trimIndices_length (n : ℕ) :
    (trimIndices n).length = (clipVertRes n * 2 - 1) * 6 := by
  have h : 1 ≤ clipVertRes n := by unfold clipVertRes; omega
  simp [trimIndices, List.length_flatMap, Function.comp_def, List.map_const',
    List.sum_replicate, smul_eq_mul]
  omega

lemma crossVerts_length (n : ℕ) : (crossVerts n).length = 8 * patchRes n := by
  simp [crossVerts, List.length_flatMap, Function.comp_def, List.map_const',
    List.sum_replicate, smul_eq_mul]
  ring

lemma range_filter_ne_length (n : ℕ) :
    ((List.range (n * 2 + 1)).filter (fun i => i ≠ n)).length = n * 2 := by
  rw [show n * 2 + 1 = n + (n + 1) by omega, List.range_add, List.filter_append]
  have h1 : (List.range n).filter (fun i => i ≠ n) = List.range n := by
    refine List.filter_eq_self.mpr ?_
    intro a ha
    simp only [List.mem_range] at ha
    simp [Nat.ne_of_lt ha]
  have h2 : ((List.range (n + 1)).map (fun x => n + x)).filter (fun i => i ≠ n)
      = ((List.range (n + 1)).filter (fun x => x ≠ 0)).map (fun x => n + x) := by
    rw [List.filter_map]
    congr 1
    refine List.filter_congr ?_
    intro x _
    simp only [Function.comp_apply]
    refine decide_eq_decide.mpr ?_
    omega
  have h3 : (List.range (n + 1)).filter (fun x => x ≠ 0)
      = (List.range n).map Nat.succ := by
    rw [List.range_succ_eq_map]
    rw [List.filter_cons]
    norm_num
  rw [h1, h2, h3]
  simp only [List.length_append, List.length_map, List.length_range]
  omega

lemma crossIndices_length (n : ℕ) : (crossIndices n).length = 24 * n + 6 := by
  unfold crossIndices
  rw [List.length_append, List.length_flatMap, List.length_flatMap]
  rw [List.map_congr_left (fun i _ => show (List.length ∘ crossQuadH) i = 6 from rfl),
    List.map_congr_left (fun i _ => show (List.length ∘ crossQuadV n) i = 6 from rfl)]
  rw [List.map_const', List.map_const', List.sum_replicate, List.sum_replicate]
  rw [List.length_range, range_filter_ne_length]
  simp only [smul_eq_mul]
  ring

lemma seamVerts_length (n : ℕ) : (seamVerts n).length = 4 * clipVertRes n := by
  unfold seamVerts
  rw [List.length_append, List.length_append, List.length_append]
  simp only [List.length_map, List.length_range]
  ring

lemma seamIndices_length (n : ℕ) : (seamIndices n).length = 6 * clipVertRes n := by
  unfold seamIndices
  rw [List.length_flatMap]
  rw [List.map_congr_left (fun p _ => show (List.length ∘ fun p =>
    [2 * p + 1, 2 * p, (2 * p + 2) % (4 * clipVertRes n)]) p = 3 from rfl)]
  rw [List.map_const', List.sum_replicate, List.length_range]
  simp only [smul_eq_mul]
  unfold clipVertRes
  omega

/-! ## Helper lemmas: index bounds -/

lemma tileIndices_lt (n : ℕ) :
    ∀ i ∈ tileIndices n, i < patchRes n * patchRes n := by
  intro i hi
  simp only [tileIndices, List.mem_flatMap, List.mem_range, List.mem_cons,
    List.mem_singleton, List.not_mem_nil, or_false] at hi
  obtain ⟨y, hy, x, hx, h⟩ := hi
  have hp : (y + 1) * patchRes n ≤ n * patchRes n :=
    mul_le_mul_right' (by omega) (patchRes n)
  unfold patchRes at hp
  rcases h with h | h | h | h | h | h <;> subst h <;> unfold patchRes <;>
    nlinarith [hx, hy, hp]

lemma fillerIndices_lt (n : ℕ) : ∀ i ∈ fillerIndices n, i < 8 * patchRes n := by
  intro i hi
  simp only [fillerIndices, List.mem_flatMap, List.mem_range] at hi
  obtain ⟨a, ha, h⟩ := hi
  have hn : 0 < n := by omega
  have harm : a / n < 4 := (Nat.div_lt_iff_lt_mul hn).mpr (by omega)
  have hloc : a % n < n := Nat.mod_lt _ hn
  have hp : (a / n) * patchRes n ≤ 3 * patchRes n :=
    mul_le_mul_right' (by omega) (patchRes n)
  unfold patchRes at hp
  split at h <;>
    simp only [List.mem_cons, List.mem_singleton, List.not_mem_nil,
      or_false] at h <;>
    rcases h with h | h | h | h | h | h <;> subst h <;> unfold patchRes <;>
    nlinarith [hloc, hp]

lemma trimIndices_lt (n : ℕ) :
    ∀ i ∈ trimIndices n, i < (clipVertRes n * 2 + 1) * 2 := by
  intro i hi
  simp only [trimIndices, List.mem_append, List.mem_flatMap, List.mem_range,
    List.mem_cons, List.mem_singleton, List.not_mem_nil, or_false] at hi
  rcases hi with ⟨j, hj, h⟩ | ⟨j, hj, h⟩ <;>
    rcases h with h | h | h | h | h | h <;> subst h <;> omega

lemma crossIndices_lt (n : ℕ) : ∀ i ∈ crossIndices n, i < 8 * patchRes n := by
  intro i hi
  simp only [crossIndices, crossQuadH, crossQuadV, List.mem_append,
    List.mem_flatMap, List.mem_range, List.mem_filter, List.mem_cons,
    List.mem_singleton, List.not_mem_nil, or_false] at hi
  have hpr : patchRes n = n + 1 := rfl
  rcases hi with ⟨j, hj, h⟩ | ⟨j, ⟨hj, _⟩, h⟩ <;>
    rcases h with h | h | h | h | h | h <;> subst h <;> omega

lemma seamIndices_lt (n : ℕ) : ∀ i ∈ seamIndices n, i < 4 * clipVertRes n := by
  intro i hi
  simp only [seamIndices, List.mem_flatMap, List.mem_range, List.mem_cons,
    List.mem_singleton, List.not_mem_nil, or_false] at hi
  obtain ⟨p, hp, h⟩ := hi
  have hpos : 0 < 4 * clipVertRes n := by unfold clipVertRes; omega
  have hmod := Nat.mod_lt (2 * p + 2) hpos
  have hdiv : 4 * clipVertRes n / 2 = 2 * clipVertRes n := by omega
  rw [hdiv] at hp
  rcases h with h | h | h <;> subst h <;> omega

/-! ## Helper lemmas: storage padding -/

lemma padVerts_take (l : List (ℚ × ℚ)) : (padVerts l).take l.length = l :=
  List.take_left l _

lemma padIdx_take (l : List ℕ) : (padIdx l).take l.length = l :=
  List.take_left l _

lemma vertex_buffer_eq (m : Mesh2d) (l : List (ℚ × ℚ))
    (hv : m.vertices = padVerts l) (hc : m.vertex_count = l.length) :
    m.vertex_buffer = some l := by
  unfold Mesh2d.vertex_buffer
  rw [hv, hc, if_pos, padVerts_take]
  unfold padVerts
  rw [List.length_append]
  omega

lemma index_buffer_eq (m : Mesh2d) (l : List ℕ)
    (hv : m.indices = padIdx l) (hc : m.index_count = l.length) :
    m.index_buffer = some l := by
  unfold Mesh2d.index_buffer
  rw [hv, hc, if_pos, padIdx_take]
  unfold padIdx
  rw [List.length_append]
  omega

/-! ## Helper lemmas: per-level instance lists -/

lemma tilesAt_length (cam : ℚ × ℚ) (level : ℕ) :
    (tilesAt cam level).length = (tileCoords level).length := by
  simp [tilesAt]

lemma tileCoords_zero_length : (tileCoords 0).length = 16 := by decide

lemma tileCoords_of_ne_zero (level : ℕ) (h : level ≠ 0) :
    tileCoords level = tileCoords 1 := by
  have hc : ∀ x y : ℕ,
      (if level ≠ 0 ∧ (x = 1 ∨ x = 2) ∧ (y = 1 ∨ y = 2) then
        ([] : List (ℕ × ℕ)) else [(x, y)])
      = (if (1 : ℕ) ≠ 0 ∧ (x = 1 ∨ x = 2) ∧ (y = 1 ∨ y = 2) then
        ([] : List (ℕ × ℕ)) else [(x, y)]) := by
    intro x y
    simp [h]
  simp only [tileCoords, hc]

lemma tileCoords_pos_length (level : ℕ) (h : level ≠ 0) :
    (tileCoords level).length = 12 := by
  rw [tileCoords_of_ne_zero level h]
  decide

/-- The per-frame tile list always holds 124 records:
16 at level 0 and 12 at each of the other 9 levels. -/
lemma update_tiles_length (cam : ℚ × ℚ) :
    (Terrain.update cam).tiles.length = 124 := by
  show ((List.range N_LEVELS).flatMap (tilesAt cam)).length = 124
  rw [List.length_flatMap]
  rw [List.map_congr_left
    (fun l _ => show (List.length ∘ tilesAt cam) l = (tileCoords l).length from
      tilesAt_length cam l)]
  decide

lemma update_trims_eq (cam : ℚ × ℚ) :
    (Terrain.update cam).trims = (List.range (N_LEVELS - 1)).map (trimAt cam) :=
  rfl

lemma update_seams_eq (cam : ℚ × ℚ) :
    (Terrain.update cam).seams = (List.range (N_LEVELS - 1)).map (seamAt cam) :=
  rfl

lemma update_crosses_eq (cam : ℚ × ℚ) :
    (Terrain.update cam).crosses = [crossAt cam 0] :=
  rfl

/-! ## Helper lemmas: snapping arithmetic -/

lemma scaleAt_pos (level : ℕ) : 0 < scaleAt level := by
  unfold scaleAt
  exact_mod_cast Nat.pos_pow_of_pos _ (by norm_num)

lemma snap_le (c s : ℚ) (hs : 0 < s) : snap c s ≤ c := by
  unfold snap
  calc ((⌊c / s⌋ : ℤ) : ℚ) * s ≤ (c / s) * s :=
        mul_le_mul_of_nonneg_right (Int.floor_le (c / s)) hs.le
    _ = c := div_mul_cancel₀ c hs.ne'

lemma lt_snap_add (c s : ℚ) (hs : 0 < s) : c < snap c s + s := by
  unfold snap
  have h : c / s < ((⌊c / s⌋ : ℤ) : ℚ) + 1 := Int.lt_floor_add_one (c / s)
  have h2 : c < (((⌊c / s⌋ : ℤ) : ℚ) + 1) * s := (div_lt_iff hs).mp h
  linarith [h2]

lemma snap_congr (c d s : ℚ) (h : ⌊c / s⌋ = ⌊d / s⌋) : snap c s = snap d s := by
  unfold snap
  rw [h]

/-- Floor of the half: if 2 * j ≤ u < 2 * j + 2 then ⌊u / 2⌋ = j. -/
lemma floor_half (u : ℚ) (j : ℤ) (h1 : (2 * j : ℚ) ≤ u)
    (h2 : u < 2 * j + 2) : ⌊u / 2⌋ = j := by
  rw [Int.floor_eq_iff]
  constructor
  · rw [le_div_iff (by norm_num : (0:ℚ) < 2)]
    push_cast
    linarith
  · rw [div_lt_iff (by norm_num : (0:ℚ) < 2)]
    push_cast
    linarith

/-- The floor with respect to the doubled cell size is determined by the
floor with respect to the cell size. -/
lemma floor_div_double (c s : ℚ) (hs : 0 < s) :
    ⌊c / (s * 2)⌋ = ⌊((⌊c / s⌋ : ℤ) : ℚ) / 2⌋ := by
  have hd : c / (s * 2) = (c / s) / 2 := by
    rw [div_div]
  rw [hd]
  rcases Int.even_or_odd ⌊c / s⌋ with ⟨j, hj⟩ | ⟨j, hj⟩
  · have hflo : ((2 * j : ℤ) : ℚ) ≤ c / s := by
      rw [show (2 * j : ℤ) = ⌊c / s⌋ by omega]
      exact Int.floor_le (c / s)
    have hfhi : c / s < ((2 * j : ℤ) : ℚ) + 1 := by
      rw [show (2 * j : ℤ) = ⌊c / s⌋ by omega]
      exact Int.lt_floor_add_one (c / s)
    rw [floor_half (c / s) j (by push_cast at hflo ⊢; linarith)
      (by push_cast at hfhi ⊢; linarith)]
    rw [hj, floor_half ((j + j : ℤ) : ℚ) j (by push_cast; linarith)
      (by push_cast; linarith)]
  · have hflo : ((2 * j + 1 : ℤ) : ℚ) ≤ c / s := by
      rw [show (2 * j + 1 : ℤ) = ⌊c / s⌋ by omega]
      exact Int.floor_le (c / s)
    have hfhi : c / s < ((2 * j + 1 : ℤ) : ℚ) + 1 := by
      rw [show (2 * j + 1 : ℤ) = ⌊c / s⌋ by omega]
      exact Int.lt_floor_add_one (c / s)
    rw [floor_half (c / s) j (by push_cast at hflo ⊢; linarith)
      (by push_cast at hfhi ⊢; linarith)]
    rw [hj, floor_half ((2 * j + 1 : ℤ) : ℚ) j (by push_cast; linarith)
      (by push_cast; linarith)]

lemma snap_double_congr (c d s : ℚ) (hs : 0 < s) (h : ⌊c / s⌋ = ⌊d / s⌋) :
    snap c (s * 2) = snap d (s * 2) := by
  unfold snap
  rw [floor_div_double c s hs, floor_div_double d s hs, h]

/-- The trim quadrant test d < scale holds iff the camera cell index at
this scale is even. -/
lemma dlt_iff (c s : ℚ) (hs : 0 < s) :
    c - snap c (s * 2) < s ↔ Even ⌊c / s⌋ := by
  unfold snap
  rw [floor_div_double c s hs]
  have hlo : ((⌊c / s⌋ : ℤ) : ℚ) ≤ c / s := Int.floor_le _
  have hup : c / s < ((⌊c / s⌋ : ℤ) : ℚ) + 1 := Int.lt_floor_add_one _
  have hlo2 : ((⌊c / s⌋ : ℤ) : ℚ) * s ≤ c := by
    calc ((⌊c / s⌋ : ℤ) : ℚ) * s ≤ (c / s) * s :=
          mul_le_mul_of_nonneg_right hlo hs.le
      _ = c := div_mul_cancel₀ c hs.ne'
  have hup2 : c < (((⌊c / s⌋ : ℤ) : ℚ) + 1) * s := (div_lt_iff₀ hs).mp hup
  rcases Int.even_or_odd ⌊c / s⌋ with ⟨j, hj⟩ | ⟨j, hj⟩
  · have hfl : ⌊((⌊c / s⌋ : ℤ) : ℚ) / 2⌋ = j := by
      rw [hj]
      exact floor_half _ j (by push_cast; linarith) (by push_cast; linarith)
    rw [hfl]
    constructor
    · intro _
      exact ⟨j, hj⟩
    · intro _
      rw [hj] at hup2
      push_cast at hup2
      linarith
  · have hfl : ⌊((⌊c / s⌋ : ℤ) : ℚ) / 2⌋ = j := by
      rw [hj]
      exact floor_half _ j (by push_cast; linarith) (by push_cast; linarith)
    rw [hfl]
    constructor
    · intro hcon
      rw [hj] at hlo2
      push_cast at hlo2
      linarith
    · intro heven
      exfalso
      rw [hj] at heven
      rcases heven with ⟨m, hm⟩
      omega

/-! ## Helper lemmas: concrete sizes at TILE_RES -/

lemma tileVerts_length_res : (tileVerts TILE_RES).length = V_TILE := by
  rw [tileVerts_length]
  decide

lemma tileIndices_length_res : (tileIndices TILE_RES).length = I_TILE := by
  rw [tileIndices_length]
  decide

lemma fillerVerts_length_res : (fillerVerts TILE_RES).length = V_FILL := by
  rw [fillerVerts_length]
  decide

lemma fillerIndices_length_res : (fillerIndices TILE_RES).length = I_FILL := by
  rw [fillerIndices_length]
  decide

lemma trimVerts_length_res : (trimVerts TILE_RES).length = V_TRIM := by
  rw [trimVerts_length]
  decide

lemma trimIndices_length_res : (trimIndices TILE_RES).length = I_TRIM := by
  rw [trimIndices_length]
  decide

lemma crossVerts_length_res : (crossVerts TILE_RES).length = V_CROSS := by
  rw [crossVerts_length]
  decide

lemma crossIndices_length_res : (crossIndices TILE_RES).length = I_CROSS := by
  rw [crossIndices_length]
  decide

lemma seamVerts_length_res : (seamVerts TILE_RES).length = V_SEAM := by
  rw [seamVerts_length]
  decide

lemma seamIndices_length_res : (seamIndices TILE_RES).length = I_SEAM := by
  rw [seamIndices_length]
  decide

/-! ## Claim theorems -/

/-- Claim C1 (code bug).  The spec requires the per-stamp draw call to
use the per-frame instance list length; for the Tile stamp the code
instead draws instance_count = N_TILES = 160 instances, the static
capacity of the pre-allocated buffer, while every update writes exactly
124 tile records, so the draw call reads 36 records past the written
prefix. -/
theorem C1_draw_uses_static_capacity : ∀ cam : ℚ × ℚ,
    (draw_terrain (TerrainComponent.new TILE_MESH)).2 = N_TILES ∧
    N_TILES = 160 ∧
    (Terrain.update cam).tiles.length = 124 ∧
    (draw_terrain (TerrainComponent.new TILE_MESH)).2
      ≠ (Terrain.update cam).tiles.length := by
  intro cam
  refine ⟨rfl, rfl, update_tiles_length cam, ?_⟩
  rw [update_tiles_length cam]
  decide

/-- Claim C2: for every camera position a single update emits 16 Tile
instances at level 0, 12 at every other level (124 in total with
N_LEVELS = 10), and exactly 1 Cross, N_LEVELS Ring, N_LEVELS - 1 Trim
and N_LEVELS - 1 Seam instances. -/
theorem C2_instance_counts : ∀ cam : ℚ × ℚ,
    (tilesAt cam 0).length = 16 ∧
    (∀ level, 1 ≤ level → level < N_LEVELS →
      (tilesAt cam level).length = 12) ∧
    (Terrain.update cam).tiles.length = 124 ∧
    (Terrain.update cam).crosses.length = 1 ∧
    (Terrain.update cam).fillers.length = N_LEVELS ∧
    (Terrain.update cam).trims.length = N_LEVELS - 1 ∧
    (Terrain.update cam).seams.length = N_LEVELS - 1 := by
  intro cam
  refine ⟨?_, ?_, update_tiles_length cam, ?_, ?_, ?_, ?_⟩
  · rw [tilesAt_length, tileCoords_zero_length]
  · intro level h1 _
    rw [tilesAt_length, tileCoords_pos_length level (by omega)]
  · rw [update_crosses_eq]
    rfl
  · show ((List.range N_LEVELS).map (fillerAt cam)).length = N_LEVELS
    rw [List.length_map, List.length_range]
  · rw [update_trims_eq, List.length_map, List.length_range]
  · rw [update_seams_eq, List.length_map, List.length_range]

theorem C2_instance_counts_witness :
    (tilesAt ((0 : ℚ), (0 : ℚ)) 3).length = 12 :=
  (C2_instance_counts ((0 : ℚ), (0 : ℚ))).2.1 3 (by norm_num) (by decide)

/-- Claim C5: the snapped position of every level satisfies
snappedPos = floor(cameraXY / scale) * scale component-wise, each
component is an integer multiple of scale(L), and
snappedPos ≤ cameraXY < snappedPos + scale(L) component-wise. -/
theorem C5_snapped_position : ∀ (cam : ℚ × ℚ) (level : ℕ),
    snappedPos cam (scaleAt level)
      = (((⌊cam.1 / scaleAt level⌋ : ℤ) : ℚ) * scaleAt level,
         ((⌊cam.2 / scaleAt level⌋ : ℤ) : ℚ) * scaleAt level) ∧
    (∃ k m : ℤ, snappedPos cam (scaleAt level)
      = ((k : ℚ) * scaleAt level, (m : ℚ) * scaleAt level)) ∧
    ((snappedPos cam (scaleAt level)).1 ≤ cam.1 ∧
      cam.1 < (snappedPos cam (scaleAt level)).1 + scaleAt level) ∧
    ((snappedPos cam (scaleAt level)).2 ≤ cam.2 ∧
      cam.2 < (snappedPos cam (scaleAt level)).2 + scaleAt level) := by
  intro cam level
  have hs := scaleAt_pos level
  exact ⟨rfl, ⟨⌊cam.1 / scaleAt level⌋, ⌊cam.2 / scaleAt level⌋, rfl⟩,
    ⟨snap_le cam.1 _ hs, lt_snap_add cam.1 _ hs⟩,
    ⟨snap_le cam.2 _ hs, lt_snap_add cam.2 _ hs⟩⟩

/-- Claim C6: in each of the five generated stamps, every index among
the first index_count entries of the stored index list is strictly
below the declared vertex count of that stamp. -/
theorem C6_indices_in_bounds :
    ((TILE_MESH.indices.take TILE_MESH.index_count).all
      (fun i => decide (i < TILE_MESH.vertex_count)) = true) ∧
    ((FILLER_MESH.indices.take FILLER_MESH.index_count).all
      (fun i => decide (i < FILLER_MESH.vertex_count)) = true) ∧
    ((TRIM_MESH.indices.take TRIM_MESH.index_count).all
      (fun i => decide (i < TRIM_MESH.vertex_count)) = true) ∧
    ((CROSS_MESH.indices.take CROSS_MESH.index_count).all
      (fun i => decide (i < CROSS_MESH.vertex_count)) = true) ∧
    ((SEAM_MESH.indices.take SEAM_MESH.index_count).all
      (fun i => decide (i < SEAM_MESH.vertex_count)) = true) := by
  refine ⟨?_, ?_, ?_, ?_, ?_⟩
  · have h : TILE_MESH.indices.take TILE_MESH.index_count
        = tileIndices TILE_RES := by
      show (padIdx (tileIndices TILE_RES)).take I_TILE = _
      rw [← tileIndices_length_res]
      exact padIdx_take _
    rw [h, List.all_eq_true]
    intro i hi
    exact decide_eq_true (tileIndices_lt TILE_RES i hi)
  · have h : FILLER_MESH.indices.take FILLER_MESH.index_count
        = fillerIndices TILE_RES := by
      show (padIdx (fillerIndices TILE_RES)).take I_FILL = _
      rw [← fillerIndices_length_res]
      exact padIdx_take _
    rw [h, List.all_eq_true]
    intro i hi
    exact decide_eq_true (fillerIndices_lt TILE_RES i hi)
  · have h : TRIM_MESH.indices.take TRIM_MESH.index_count
        = trimIndices TILE_RES := by
      show (padIdx (trimIndices TILE_RES)).take I_TRIM = _
      rw [← trimIndices_length_res]
      exact padIdx_take _
    rw [h, List.all_eq_true]
    intro i hi
    exact decide_eq_true (trimIndices_lt TILE_RES i hi)
  · have h : CROSS_MESH.indices.take CROSS_MESH.index_count
        = crossIndices TILE_RES := by
      show (padIdx (crossIndices TILE_RES)).take I_CROSS = _
      rw [← crossIndices_length_res]
      exact padIdx_take _
    rw [h, List.all_eq_true]
    intro i hi
    exact decide_eq_true (crossIndices_lt TILE_RES i hi)
  · have h : SEAM_MESH.indices.take SEAM_MESH.index_count
        = seamIndices TILE_RES := by
      show (padIdx (seamIndices TILE_RES)).take I_SEAM = _
      rw [← seamIndices_length_res]
      exact padIdx_take _
    rw [h, List.all_eq_true]
    intro i hi
    exact decide_eq_true (seamIndices_lt TILE_RES i hi)

/-- Claim C7: the generated vertex and index sequences of the five
stamps fill exactly the declared closed-form counts, for any tile
resolution n, and the concrete values at TILE_RES = 64 are
V_TILE = 4225, I_TILE = 24576, V_FILL = 520, I_FILL = 1536. -/
theorem C7_stamp_closed_forms : ∀ n : ℕ,
    ((tileVerts n).length = patchRes n * patchRes n ∧
     (tileIndices n).length = 6 * (n * n)) ∧
    ((fillerVerts n).length = 8 * patchRes n ∧
     (fillerIndices n).length = 24 * n) ∧
    ((trimVerts n).length = (clipVertRes n * 2 + 1) * 2 ∧
     (trimIndices n).length = (clipVertRes n * 2 - 1) * 6) ∧
    ((crossVerts n).length = 8 * patchRes n ∧
     (crossIndices n).length = 24 * n + 6) ∧
    ((seamVerts n).length = 4 * clipVertRes n) ∧
    (V_TILE = 4225 ∧ I_TILE = 24576 ∧ V_FILL = 520 ∧ I_FILL = 1536) ∧
    ((tileVerts TILE_RES).length = V_TILE ∧
     (tileIndices TILE_RES).length = I_TILE ∧
     (fillerVerts TILE_RES).length = V_FILL ∧
     (fillerIndices TILE_RES).length = I_FILL ∧
     (trimVerts TILE_RES).length = V_TRIM ∧
     (trimIndices TILE_RES).length = I_TRIM ∧
     (crossVerts TILE_RES).length = V_CROSS ∧
     (crossIndices TILE_RES).length = I_CROSS ∧
     (seamVerts TILE_RES).length = V_SEAM ∧
     (seamIndices TILE_RES).length = I_SEAM) := by
  intro n
  exact ⟨⟨tileVerts_length n, tileIndices_length n⟩,
    ⟨fillerVerts_length n, fillerIndices_length n⟩,
    ⟨trimVerts_length n, trimIndices_length n⟩,
    ⟨crossVerts_length n, crossIndices_length n⟩,
    seamVerts_length n,
    ⟨rfl, rfl, rfl, rfl⟩,
    ⟨tileVerts_length_res, tileIndices_length_res,
     fillerVerts_length_res, fillerIndices_length_res,
     trimVerts_length_res, trimIndices_length_res,
     crossVerts_length_res, crossIndices_length_res,
     seamVerts_length_res, seamIndices_length_res⟩⟩

/-- Claim C10: every stamp declares counts within the uniform storage
capacities V_MAX and I_MAX, so the upload slices are in bounds, and the
uploaded buffer contents are exactly the generated prefixes; the unused
storage tail is never uploaded. -/
theorem C10_upload_exact_prefix :
    (TILE_MESH.vertex_count ≤ V_MAX ∧ TILE_MESH.index_count ≤ I_MAX ∧
     TILE_MESH.vertex_buffer = some (tileVerts TILE_RES) ∧
     TILE_MESH.index_buffer = some (tileIndices TILE_RES)) ∧
    (FILLER_MESH.vertex_count ≤ V_MAX ∧ FILLER_MESH.index_count ≤ I_MAX ∧
     FILLER_MESH.vertex_buffer = some (fillerVerts TILE_RES) ∧
     FILLER_MESH.index_buffer = some (fillerIndices TILE_RES)) ∧
    (TRIM_MESH.vertex_count ≤ V_MAX ∧ TRIM_MESH.index_count ≤ I_MAX ∧
     TRIM_MESH.vertex_buffer = some (trimVerts TILE_RES) ∧
     TRIM_MESH.index_buffer = some (trimIndices TILE_RES)) ∧
    (CROSS_MESH.vertex_count ≤ V_MAX ∧ CROSS_MESH.index_count ≤ I_MAX ∧
     CROSS_MESH.vertex_buffer = some (crossVerts TILE_RES) ∧
     CROSS_MESH.index_buffer = some (crossIndices TILE_RES)) ∧
    (SEAM_MESH.vertex_count ≤ V_MAX ∧ SEAM_MESH.index_count ≤ I_MAX ∧
     SEAM_MESH.vertex_buffer = some (seamVerts TILE_RES) ∧
     SEAM_MESH.index_buffer = some (seamIndices TILE_RES)) := by
  refine ⟨⟨by decide, by decide, ?_, ?_⟩, ⟨by decide, by decide, ?_, ?_⟩,
    ⟨by decide, by decide, ?_, ?_⟩, ⟨by decide, by decide, ?_, ?_⟩,
    ⟨by decide, by decide, ?_, ?_⟩⟩
  · exact vertex_buffer_eq _ _ rfl tileVerts_length_res.symm
  · exact index_buffer_eq _ _ rfl tileIndices_length_res.symm
  · exact vertex_buffer_eq _ _ rfl fillerVerts_length_res.symm
  · exact index_buffer_eq _ _ rfl fillerIndices_length_res.symm
  · exact vertex_buffer_eq _ _ rfl trimVerts_length_res.symm
  · exact index_buffer_eq _ _ rfl trimIndices_length_res.symm
  · exact vertex_buffer_eq _ _ rfl crossVerts_length_res.symm
  · exact index_buffer_eq _ _ rfl crossIndices_length_res.symm
  · exact vertex_buffer_eq _ _ rfl seamVerts_length_res.symm
  · exact index_buffer_eq _ _ rfl seamIndices_length_res.symm

/-- Claim C3: the Tile instances of level L are exactly those for grid
coordinates (x, y) in 0..4 x 0..4, excluding the inner 2x2 block when
L is not 0; each carries scale(L), identity rotation and translation
base + (x, y) * tileSize + fill with
fill = (scale if x >= 2 else 0, scale if y >= 2 else 0) and
base = snappedPos - 2 * tileSize. -/
theorem C3_tile_instances : ∀ (cam : ℚ × ℚ) (level : ℕ)
    (inst : InstanceData),
    inst ∈ tilesAt cam level ↔
      ∃ x y : ℕ, x < 4 ∧ y < 4 ∧
        ¬(level ≠ 0 ∧ (x = 1 ∨ x = 2) ∧ (y = 1 ∨ y = 2)) ∧
        inst = { scale := scaleAt level, rot := 0,
                 translation :=
                   (snap cam.1 (scaleAt level) - 2 * tileSizeAt level
                      + (x : ℚ) * tileSizeAt level
                      + (if x ≥ 2 then scaleAt level else 0),
                    snap cam.2 (scaleAt level) - 2 * tileSizeAt level
                      + (y : ℚ) * tileSizeAt level
                      + (if y ≥ 2 then scaleAt level else 0)) } := by
  intro cam level inst
  simp only [tilesAt, List.mem_map]
  constructor
  · rintro ⟨p, hp, rfl⟩
    simp only [tileCoords, List.mem_flatMap, List.mem_range] at hp
    obtain ⟨x, hx, y, hy, hmem⟩ := hp
    by_cases hc : level ≠ 0 ∧ (x = 1 ∨ x = 2) ∧ (y = 1 ∨ y = 2)
    · rw [if_pos hc] at hmem
      exact absurd hmem (List.not_mem_nil p)
    · rw [if_neg hc, List.mem_singleton] at hmem
      subst hmem
      exact ⟨x, y, hx, hy, hc, rfl⟩
  · rintro ⟨x, y, hx, hy, hc, rfl⟩
    refine ⟨(x, y), ?_, rfl⟩
    simp only [tileCoords, List.mem_flatMap, List.mem_range]
    exact ⟨x, hx, y, hy, by rw [if_neg hc]; exact List.mem_singleton.mpr rfl⟩

theorem C3_tile_instances_witness :
    ({ scale := scaleAt 1, rot := 0,
       translation :=
         (snap (0 : ℚ) (scaleAt 1) - 2 * tileSizeAt 1
            + ((0 : ℕ) : ℚ) * tileSizeAt 1
            + (if (0 : ℕ) ≥ 2 then scaleAt 1 else 0),
          snap (0 : ℚ) (scaleAt 1) - 2 * tileSizeAt 1
            + ((0 : ℕ) : ℚ) * tileSizeAt 1
            + (if (0 : ℕ) ≥ 2 then scaleAt 1 else 0)) } : InstanceData)
      ∈ tilesAt ((0 : ℚ), (0 : ℚ)) 1 :=
  (C3_tile_instances ((0 : ℚ), (0 : ℚ)) 1 _).mpr
    ⟨0, 0, by decide, by decide, by decide, rfl⟩

/-- Claim C4: the Trim instance of every non-outermost level sits at
snappedPos + 0.5 * scale with scale(L) and rotation ROTATIONS[r] for
the quadrant index r = (d.x < scale ? 2 : 0) | (d.y < scale ? 1 : 0)
with d = cameraXY - nextSnap; r is always in {0, 1, 2, 3}; the rotation
table holds 0, 270, 90, 180 degrees at indices 0..3 (as quarter-turn
counts 0, 3, 1, 2); and d = (0, 0) deterministically yields r = 3. -/
theorem C4_trim_placement : ∀ (cam : ℚ × ℚ) (level : ℕ),
    level < N_LEVELS - 1 →
    ((Terrain.update cam).trims[level]?
      = some { scale := scaleAt level, rot := ROTATIONS (rIdx cam level),
               translation :=
                 (snap cam.1 (scaleAt level) + scaleAt level / 2,
                  snap cam.2 (scaleAt level) + scaleAt level / 2) }) ∧
    rIdx cam level < 4 ∧
    (ROTATIONS 0 = 0 ∧ ROTATIONS 1 = 3 ∧ ROTATIONS 2 = 1 ∧
      ROTATIONS 3 = 2) ∧
    ((cam.1 - (nextSnap cam level).1, cam.2 - (nextSnap cam level).2)
        = ((0 : ℚ), (0 : ℚ)) →
      rIdx cam level = 3) := by
  intro cam level hlev
  refine ⟨?_, ?_, ⟨rfl, rfl, rfl, rfl⟩, ?_⟩
  · rw [update_trims_eq, List.getElem?_map, List.getElem?_range hlev]
    rfl
  · unfold rIdx
    split_ifs <;> decide
  · intro hd
    have hd1 : cam.1 - (nextSnap cam level).1 = 0 :=
      congrArg Prod.fst hd
    have hd2 : cam.2 - (nextSnap cam level).2 = 0 :=
      congrArg Prod.snd hd
    unfold rIdx
    rw [hd1, hd2, if_pos (scaleAt_pos level), if_pos (scaleAt_pos level)]
    decide

theorem C4_trim_placement_witness :
    (Terrain.update ((0 : ℚ), (0 : ℚ))).trims[0]?
      = some { scale := scaleAt 0, rot := ROTATIONS (rIdx ((0 : ℚ), (0 : ℚ)) 0),
               translation :=
                 (snap (0 : ℚ) (scaleAt 0) + scaleAt 0 / 2,
                  snap (0 : ℚ) (scaleAt 0) + scaleAt 0 / 2) } ∧
    rIdx ((0 : ℚ), (0 : ℚ)) 0 = 3 :=
  ⟨(C4_trim_placement ((0 : ℚ), (0 : ℚ)) 0 (by decide)).1,
   (C4_trim_placement ((0 : ℚ), (0 : ℚ)) 0 (by decide)).2.2.2
     (by simp [nextSnap, snappedPos, snap])⟩

/-! ## Helper lemmas: cross stamp geometry -/

/-- Every cross vertex lies in the square [-n, n + 1] x [-n, n + 1]. -/
lemma crossVerts_span (n : ℕ) : ∀ p ∈ crossVerts n,
    (-(n : ℚ) ≤ p.1 ∧ p.1 ≤ (n : ℚ) + 1) ∧
    (-(n : ℚ) ≤ p.2 ∧ p.2 ≤ (n : ℚ) + 1) := by
  intro p hp
  have hn : (0 : ℚ) ≤ (n : ℚ) := Nat.cast_nonneg n
  simp only [crossVerts, List.mem_append, List.mem_flatMap, List.mem_range,
    List.mem_cons, List.mem_singleton, List.not_mem_nil, or_false] at hp
  rcases hp with ⟨i, hi, h⟩ | ⟨i, hi, h⟩ <;>
  · have hiq : (i : ℚ) ≤ 2 * (n : ℚ) + 1 := by
      have : i ≤ 2 * n + 1 := by
        unfold patchRes at hi
        omega
      exact_mod_cast this
    have hiq0 : (0 : ℚ) ≤ (i : ℚ) := Nat.cast_nonneg i
    rcases h with h | h <;> subst h <;> dsimp only <;>
      exact ⟨⟨by linarith, by linarith⟩, by linarith, by linarith⟩

lemma crossVerts_mem_right (n : ℕ) :
    (((n : ℚ) + 1, (0 : ℚ)) ∈ crossVerts n) := by
  unfold crossVerts
  refine List.mem_append.mpr (Or.inl ?_)
  refine List.mem_flatMap.mpr ⟨2 * n + 1,
    List.mem_range.mpr (by unfold patchRes; omega), ?_⟩
  refine List.mem_cons.mpr (Or.inl ?_)
  rw [Prod.mk.injEq]
  constructor
  · push_cast
    ring
  · rfl

lemma crossVerts_mem_left (n : ℕ) :
    ((-(n : ℚ), (0 : ℚ)) ∈ crossVerts n) := by
  unfold crossVerts
  refine List.mem_append.mpr (Or.inl ?_)
  refine List.mem_flatMap.mpr ⟨0,
    List.mem_range.mpr (by unfold patchRes; omega), ?_⟩
  refine List.mem_cons.mpr (Or.inl ?_)
  rw [Prod.mk.injEq]
  constructor
  · push_cast
    ring
  · rfl

lemma crossVerts_mem_top (n : ℕ) :
    (((0 : ℚ), (n : ℚ) + 1) ∈ crossVerts n) := by
  unfold crossVerts
  refine List.mem_append.mpr (Or.inr ?_)
  refine List.mem_flatMap.mpr ⟨2 * n + 1,
    List.mem_range.mpr (by unfold patchRes; omega), ?_⟩
  refine List.mem_cons.mpr (Or.inl ?_)
  rw [Prod.mk.injEq]
  constructor
  · rfl
  · push_cast
    ring

lemma crossVerts_mem_bottom (n : ℕ) :
    (((0 : ℚ), -(n : ℚ)) ∈ crossVerts n) := by
  unfold crossVerts
  refine List.mem_append.mpr (Or.inr ?_)
  refine List.mem_flatMap.mpr ⟨0,
    List.mem_range.mpr (by unfold patchRes; omega), ?_⟩
  refine List.mem_cons.mpr (Or.inl ?_)
  rw [Prod.mk.injEq]
  constructor
  · rfl
  · push_cast
    ring

lemma infix_flatMap_of_mem {α β : Type} (l : List α) (f : α → List β)
    (a : α) (ha : a ∈ l) : f a <:+: l.flatMap f := by
  obtain ⟨s, t, rfl⟩ := List.append_of_mem ha
  refine ⟨s.flatMap f, t.flatMap f, ?_⟩
  rw [List.flatMap_append, List.flatMap_cons]
  simp [List.append_assoc]

/-- Claim C8 (counterexample).  The claim asserts the cross strips span
plus-minus (TILE_RES + 1) steps from the origin; in fact the horizontal
strip reaches x = TILE_RES + 1 = 65 on the right but only
x = -TILE_RES = -64 on the left: the vertex (-65, 0) required by a
symmetric span does not exist. -/
theorem C8_cross_span_cex :
    (((65 : ℚ), (0 : ℚ)) ∈ crossVerts TILE_RES) ∧
    (((-64 : ℚ), (0 : ℚ)) ∈ crossVerts TILE_RES) ∧
    ¬(((-65 : ℚ), (0 : ℚ)) ∈ crossVerts TILE_RES) := by
  refine ⟨?_, ?_, ?_⟩
  · have h := crossVerts_mem_right TILE_RES
    norm_num [TILE_RES] at h
    exact h
  · have h := crossVerts_mem_left TILE_RES
    norm_num [TILE_RES] at h
    exact h
  · intro hmem
    have h := (crossVerts_span TILE_RES _ hmem).1.1
    norm_num [TILE_RES] at h

/-- Claim C8 (amended): the two cross strips span from -TILE_RES to
+(TILE_RES + 1) steps from the origin along their long axis (all
vertices lie in [-n, n+1] on both axes and all four extremes are
attained), and the vertical strip contributes the quad of every strip
position except position TILE_RES: each such quad appears contiguously
in the index list, and the total index count 24 * n + 6 accounts for
exactly one quad fewer than the two full strips of 2 * n + 1 quads
each. -/
theorem C8_cross_structure : ∀ n : ℕ,
    (∀ p ∈ crossVerts n,
      (-(n : ℚ) ≤ p.1 ∧ p.1 ≤ (n : ℚ) + 1) ∧
      (-(n : ℚ) ≤ p.2 ∧ p.2 ≤ (n : ℚ) + 1)) ∧
    ((((n : ℚ) + 1, (0 : ℚ)) ∈ crossVerts n) ∧
     ((-(n : ℚ), (0 : ℚ)) ∈ crossVerts n) ∧
     (((0 : ℚ), (n : ℚ) + 1) ∈ crossVerts n) ∧
     (((0 : ℚ), -(n : ℚ)) ∈ crossVerts n)) ∧
    (∀ i, i < n * 2 + 1 → i ≠ n →
      crossQuadV n i <:+: crossIndices n) ∧
    (crossIndices n).length = 6 * (2 * (n * 2 + 1)) - 6 := by
  intro n
  refine ⟨crossVerts_span n,
    ⟨crossVerts_mem_right n, crossVerts_mem_left n,
     crossVerts_mem_top n, crossVerts_mem_bottom n⟩, ?_, ?_⟩
  · intro i hi hne
    unfold crossIndices
    have hmem : i ∈ (List.range (n * 2 + 1)).filter (fun j => j ≠ n) :=
      List.mem_filter.mpr ⟨List.mem_range.mpr hi, by simp [hne]⟩
    refine (infix_flatMap_of_mem _ (crossQuadV n) i hmem).trans ?_
    exact ⟨(List.range (n * 2 + 1)).flatMap crossQuadH, [], by simp⟩
  · rw [crossIndices_length]
    omega

theorem C8_cross_structure_witness :
    crossQuadV TILE_RES 63 <:+: crossIndices TILE_RES :=
  (C8_cross_structure TILE_RES).2.2.1 63 (by decide) (by decide)

/-! ## Helper lemmas: snap invariance -/

lemma rIdx_congr (c1 c2 : ℚ × ℚ) (level : ℕ)
    (h1 : ⌊c1.1 / scaleAt level⌋ = ⌊c2.1 / scaleAt level⌋)
    (h2 : ⌊c1.2 / scaleAt level⌋ = ⌊c2.2 / scaleAt level⌋) :
    rIdx c1 level = rIdx c2 level := by
  have hs := scaleAt_pos level
  unfold rIdx nextSnap snappedPos
  have e1 : (c1.1 - snap c1.1 (scaleAt level * 2) < scaleAt level)
      ↔ (c2.1 - snap c2.1 (scaleAt level * 2) < scaleAt level) := by
    rw [dlt_iff _ _ hs, dlt_iff _ _ hs, h1]
  have e2 : (c1.2 - snap c1.2 (scaleAt level * 2) < scaleAt level)
      ↔ (c2.2 - snap c2.2 (scaleAt level * 2) < scaleAt level) := by
    rw [dlt_iff _ _ hs, dlt_iff _ _ hs, h2]
  rw [if_congr e1 rfl rfl, if_congr e2 rfl rfl]

/-- Claim C9 (counterexample).  The claim asserts that any two camera
positions closer than scale(0) = 32 in each coordinate produce the same
level-0 transforms; the positions (31, 0) and (33, 0) differ by 2 < 32
but lie in different snap cells, so already the Cross instance moves. -/
theorem C9_snap_invariance_cex :
    |(33 : ℚ) - 31| < scaleAt 0 ∧ |(0 : ℚ) - 0| < scaleAt 0 ∧
    (Terrain.update ((31 : ℚ), (0 : ℚ))).crosses
      ≠ (Terrain.update ((33 : ℚ), (0 : ℚ))).crosses := by
  have hs : scaleAt 0 = 32 := by
    unfold scaleAt SCALE_OFFSET
    norm_num
  have h31 : snap (31 : ℚ) (scaleAt 0) = 0 := by
    unfold snap
    rw [hs]
    norm_num
  have h33 : snap (33 : ℚ) (scaleAt 0) = 32 := by
    unfold snap
    rw [hs]
    norm_num
  refine ⟨by rw [hs]; norm_num, by rw [hs]; norm_num, ?_⟩
  rw [update_crosses_eq, update_crosses_eq]
  unfold crossAt snappedPos
  dsimp only
  rw [h31, h33]
  simp only [ne_eq, List.cons.injEq, and_true, InstanceData.mk.injEq,
    Prod.mk.injEq]
  intro hcon
  norm_num at hcon

/-- Claim C9 (amended): any two camera positions lying in the same
scale(0) snap cell, that is with equal floor(cameraXY / scale(0))
component-wise, produce identical level-0 instance transforms: the same
Cross list, level-0 Tile list, level-0 Ring, level-0 Trim and level-0
Seam instances. -/
theorem C9_snap_invariance : ∀ c1 c2 : ℚ × ℚ,
    ⌊c1.1 / scaleAt 0⌋ = ⌊c2.1 / scaleAt 0⌋ →
    ⌊c1.2 / scaleAt 0⌋ = ⌊c2.2 / scaleAt 0⌋ →
    (Terrain.update c1).crosses = (Terrain.update c2).crosses ∧
    tilesAt c1 0 = tilesAt c2 0 ∧
    fillerAt c1 0 = fillerAt c2 0 ∧
    trimAt c1 0 = trimAt c2 0 ∧
    seamAt c1 0 = seamAt c2 0 := by
  intro c1 c2 h1 h2
  have hs := scaleAt_pos 0
  have hsnap1 : snap c1.1 (scaleAt 0) = snap c2.1 (scaleAt 0) :=
    snap_congr _ _ _ h1
  have hsnap2 : snap c1.2 (scaleAt 0) = snap c2.2 (scaleAt 0) :=
    snap_congr _ _ _ h2
  have hnext1 : snap c1.1 (scaleAt 0 * 2) = snap c2.1 (scaleAt 0 * 2) :=
    snap_double_congr _ _ _ hs h1
  have hnext2 : snap c1.2 (scaleAt 0 * 2) = snap c2.2 (scaleAt 0 * 2) :=
    snap_double_congr _ _ _ hs h2
  refine ⟨?_, ?_, ?_, ?_, ?_⟩
  · rw [update_crosses_eq, update_crosses_eq]
    unfold crossAt snappedPos
    rw [hsnap1, hsnap2]
  · unfold tilesAt
    refine List.map_congr_left ?_
    intro xy _
    unfold tileAt
    rw [hsnap1, hsnap2]
  · unfold fillerAt snappedPos
    rw [hsnap1, hsnap2]
  · unfold trimAt
    rw [hsnap1, hsnap2, rIdx_congr c1 c2 0 h1 h2]
  · unfold seamAt nextSnap snappedPos
    rw [hnext1, hnext2]

theorem C9_snap_invariance_witness :
    (Terrain.update ((5 : ℚ), (7 : ℚ))).crosses
      = (Terrain.update ((20 : ℚ), (9 : ℚ))).crosses := by
  refine (C9_snap_invariance ((5 : ℚ), (7 : ℚ)) ((20 : ℚ), (9 : ℚ)) ?_ ?_).1 <;>
  · show (⌊_ / scaleAt 0⌋ : ℤ) = ⌊_ / scaleAt 0⌋
    unfold scaleAt SCALE_OFFSET
    norm_num

end WgpuTerrain
